import Mathlib

/-!
Verification of the client-side state-synchronization layer of the
pokepal admin dashboard (directory `src/admin/src`).

The development shallowly embeds the relevant TypeScript sources:

* `src/admin/src/stores/devices.ts` — the devices/users Pinia stores:
  `loadDevices`/`loadUsers` (cancellable snapshot fetch), the SignalR
  push-event merge handlers registered by `initializeSignalR`, and
  `cleanup`.
* `src/admin/src/utils/signalr.ts` — `connectSignalR`,
  `disconnectSignalR`, the `accessTokenFactory` reconnect-credential
  logic, and the `onDeviceUpdated`/`onUserUpdated`/`onUserDeleted`
  subscription helpers.
* `src/admin/src/api/devices.ts` and `src/admin/src/api/client.js` —
  the fetch boundary that classifies transport failures into domain
  error kinds and user-facing messages.
* `src/admin/src/stores/toast.ts` — the ephemeral notification queue.

Pure functions become Lean functions; the asynchronous store and
connection code becomes explicit small-step state machines whose steps
are the synchronous segments between `await` suspension points, so that
interleavings of concurrent calls can be quantified over.
-/

namespace Pokepal

/-! ## Entities

`Device` from `src/admin/src/api/devices.ts` (deviceId, status,
lastSeen); `User` from `src/admin/src/utils/signalr.ts` (`UserUpdate`
payload: id, name, tasks). Field values other than the identifier are
opaque domain data. -/

structure Device where
  deviceId : String
  status : String
  lastSeen : String
deriving Repr, DecidableEq

structure UserTask where
  id : String
  description : String
deriving Repr, DecidableEq

structure User where
  id : String
  name : String
  tasks : List UserTask
deriving Repr, DecidableEq

/-! ## Push-event merge handlers

The handlers registered by `initializeSignalR` in
`src/admin/src/stores/devices.ts`.

User update handler (lines 186–195):
```
const index = users.value.findIndex(u => u.id === updatedUser.id)
if (index !== -1) { users.value[index] = updatedUser }
else { users.value.push(updatedUser) }
```
User delete handler (lines 197–201):
```
users.value = users.value.filter(u => u.id !== deletedUser.id)
```
Device update handler (lines 59–75) receives an array and applies the
same find/replace-or-push step to each element in order (`forEach`). -/

def onUserUpdatedHandler (users : List User) (updatedUser : User) : List User :=
  match users.findIdx? (fun u => u.id == updatedUser.id) with
  | some index => users.set index updatedUser
  | none => users ++ [updatedUser]

def onUserDeletedHandler (users : List User) (deletedUserId : String) : List User :=
  users.filter (fun u => u.id != deletedUserId)

def upsertDevice (devices : List Device) (updated : Device) : List Device :=
  match devices.findIdx? (fun d => d.deviceId == updated.deviceId) with
  | some index => devices.set index updated
  | none => devices ++ [updated]

def onDeviceUpdatedHandler (devices : List Device) (updatedDevices : List Device) : List Device :=
  updatedDevices.foldl upsertDevice devices

/-- A push event delivered to the users store: an update (create or
modify) carrying the entity, or a delete carrying the id. -/
inductive UserEvent
  | updated (u : User)
  | deleted (id : String)
deriving Repr, DecidableEq

def applyUserEvent (users : List User) : UserEvent → List User
  | .updated u => onUserUpdatedHandler users u
  | .deleted i => onUserDeletedHandler users i

def applyUserEvents (users : List User) (events : List UserEvent) : List User :=
  events.foldl applyUserEvent users

/-! ## Generic facts about the find/replace-or-push step

Both update handlers are instances of one keyed upsert pattern; we
factor the proofs through `upsertBy` (the handlers are definitionally
equal to their `upsertBy` instances). -/

def upsertBy {α : Type} (k : α → String) (xs : List α) (x : α) : List α :=
  match xs.findIdx? (fun y => k y == k x) with
  | some i => xs.set i x
  | none => xs ++ [x]

theorem onUserUpdatedHandler_eq_upsertBy (users : List User) (u : User) :
    onUserUpdatedHandler users u = upsertBy User.id users u := rfl

theorem upsertDevice_eq_upsertBy (devices : List Device) (d : Device) :
    upsertDevice devices d = upsertBy Device.deviceId devices d := rfl

theorem List.set_get_self {α : Type} :
    ∀ (l : List α) (i : Nat) (h : i < l.length), l.set i (l.get ⟨i, h⟩) = l
  | _ :: _, 0, _ => rfl
  | a :: l, i + 1, h => by
    simpa using congrArg (a :: ·) (List.set_get_self l i (Nat.lt_of_succ_lt_succ h))

theorem upsertBy_of_not_found {α : Type} (k : α → String) (xs : List α) (x : α)
    (h : ∀ y ∈ xs, k y ≠ k x) : upsertBy k xs x = xs ++ [x] := by
  have hf : xs.findIdx? (fun y => k y == k x) = none := by
    rw [List.findIdx?_eq_none_iff]
    intro y hy
    simpa using h y hy
  simp [upsertBy, hf]

theorem upsertBy_of_found {α : Type} (k : α → String) (xs : List α) (x : α)
    (h : ∃ y ∈ xs, k y = k x) :
    ∃ i, ∃ w, xs[i]? = some w ∧ k w = k x ∧ upsertBy k xs x = xs.set i x := by
  have hex : ∃ y, y ∈ xs ∧ (fun y => k y == k x) y = true := by
    obtain ⟨y, hy, hk⟩ := h
    exact ⟨y, hy, by simpa using hk⟩
  have hf := List.findIdx?_eq_some_of_exists hex
  obtain ⟨hlt, hp, -⟩ := List.findIdx?_eq_some_iff_getElem.mp hf
  refine ⟨xs.findIdx (fun y => k y == k x), xs.get ⟨xs.findIdx (fun y => k y == k x), hlt⟩,
    ?_, by simpa using hp, ?_⟩
  · simp [List.getElem?_eq_getElem hlt, List.get_eq_getElem]
  · simp [upsertBy, hf]

theorem nodup_map_upsertBy {α : Type} (k : α → String) (xs : List α) (x : α)
    (h : (xs.map k).Nodup) : ((upsertBy k xs x).map k).Nodup := by
  cases hf : xs.findIdx? (fun y => k y == k x) with
  | none =>
    have hmem : k x ∉ xs.map k := by
      rw [List.findIdx?_eq_none_iff] at hf
      intro hm
      obtain ⟨y, hy, hk⟩ := List.mem_map.mp hm
      have := hf y hy
      simp [hk] at this
    have : ((xs ++ [x]).map k).Nodup := by
      rw [List.map_append]
      simp only [List.map_cons, List.map_nil]
      rw [List.nodup_append]
      exact ⟨h, List.nodup_singleton _, by simpa [List.disjoint_singleton] using hmem⟩
    simpa [upsertBy, hf] using this
  | some i =>
    obtain ⟨hlt, hp, -⟩ := List.findIdx?_eq_some_iff_getElem.mp hf
    have hk : k (xs.get ⟨i, hlt⟩) = k x := by simpa using hp
    have hmap : (xs.set i x).map k = xs.map k := by
      rw [List.map_set]
      have hlt' : i < (xs.map k).length := by simpa using hlt
      have hget : (xs.map k).get ⟨i, hlt'⟩ = k x := by
        simp only [List.get_eq_getElem, List.getElem_map]
        exact hk
      rw [← hget, List.set_get_self]
    have : ((xs.set i x).map k).Nodup := by rw [hmap]; exact h
    simpa [upsertBy, hf] using this

theorem nodup_map_filter {α : Type} (k : α → String) (xs : List α) (p : α → Bool)
    (h : (xs.map k).Nodup) : ((xs.filter p).map k).Nodup :=
  h.sublist ((xs.filter_sublist).map k)

theorem nodup_applyUserEvent (users : List User) (e : UserEvent)
    (h : (users.map User.id).Nodup) : ((applyUserEvent users e).map User.id).Nodup := by
  cases e with
  | updated u =>
    simpa [applyUserEvent, onUserUpdatedHandler_eq_upsertBy] using
      nodup_map_upsertBy User.id users u h
  | deleted i =>
    exact nodup_map_filter User.id users _ h

theorem nodup_applyUserEvents (events : List UserEvent) :
    ∀ users : List User, (users.map User.id).Nodup →
      ((applyUserEvents users events).map User.id).Nodup := by
  induction events with
  | nil => intro users h; simpa [applyUserEvents] using h
  | cons e es ih =>
    intro users h
    have := ih (applyUserEvent users e) (nodup_applyUserEvent users e h)
    simpa [applyUserEvents] using this

theorem nodup_onDeviceUpdatedHandler (batch : List Device) :
    ∀ devices : List Device, (devices.map Device.deviceId).Nodup →
      ((onDeviceUpdatedHandler devices batch).map Device.deviceId).Nodup := by
  induction batch with
  | nil => intro devices h; simpa [onDeviceUpdatedHandler] using h
  | cons d ds ih =>
    intro devices h
    have h1 : ((upsertDevice devices d).map Device.deviceId).Nodup := by
      simpa [upsertDevice_eq_upsertBy] using
        nodup_map_upsertBy Device.deviceId devices d h
    have := ih (upsertDevice devices d) h1
    simpa [onDeviceUpdatedHandler] using this

theorem filter_eq_self_of_forall {α : Type} (p : α → Bool) :
    ∀ l : List α, (∀ a ∈ l, p a = true) → l.filter p = l
  | [], _ => rfl
  | a :: l, h => by
    have ha : p a = true := h a (List.mem_cons_self a l)
    simp [List.filter_cons, ha, filter_eq_self_of_forall p l fun b hb => h b (List.mem_cons_of_mem a hb)]

/-- C4: the push-event merge is update-or-insert and delete-if-present.
For the user handlers: an update event whose id is present replaces the
matching entry in place (`List.set` at its current index), an update
whose id is absent appends the entity at the end; a delete event keeps
exactly the entries with a different id, and a delete matching nothing
leaves the collection unchanged. The device update handler applies the
same upsert step (shown for a one-element batch, the handler folds it
over the batch). -/
theorem merge_upsert_delete :
    (∀ (us : List User) (u : User), (∃ y ∈ us, y.id = u.id) →
      ∃ i w, us[i]? = some w ∧ w.id = u.id ∧ onUserUpdatedHandler us u = us.set i u) ∧
    (∀ (us : List User) (u : User), (∀ y ∈ us, y.id ≠ u.id) →
      onUserUpdatedHandler us u = us ++ [u]) ∧
    (∀ (us : List User) (did : String) (y : User),
      y ∈ onUserDeletedHandler us did ↔ y ∈ us ∧ y.id ≠ did) ∧
    (∀ (us : List User) (did : String), (∀ y ∈ us, y.id ≠ did) →
      onUserDeletedHandler us did = us) ∧
    (∀ (ds : List Device) (d : Device), (∃ y ∈ ds, y.deviceId = d.deviceId) →
      ∃ i w, ds[i]? = some w ∧ w.deviceId = d.deviceId ∧ upsertDevice ds d = ds.set i d) ∧
    (∀ (ds : List Device) (d : Device), (∀ y ∈ ds, y.deviceId ≠ d.deviceId) →
      upsertDevice ds d = ds ++ [d]) ∧
    (∀ (ds : List Device) (d : Device), onDeviceUpdatedHandler ds [d] = upsertDevice ds d) := by
  refine ⟨?_, ?_, ?_, ?_, ?_, ?_, ?_⟩
  · intro us u h
    rw [onUserUpdatedHandler_eq_upsertBy]
    exact upsertBy_of_found User.id us u h
  · intro us u h
    rw [onUserUpdatedHandler_eq_upsertBy]
    exact upsertBy_of_not_found User.id us u h
  · intro us did y
    simp [onUserDeletedHandler, List.mem_filter, bne_iff_ne]
  · intro us did h
    apply filter_eq_self_of_forall
    intro a ha
    simpa using h a ha
  · intro ds d h
    rw [upsertDevice_eq_upsertBy]
    exact upsertBy_of_found Device.deviceId ds d h
  · intro ds d h
    rw [upsertDevice_eq_upsertBy]
    exact upsertBy_of_not_found Device.deviceId ds d h
  · intro ds d
    rfl

theorem merge_upsert_delete_witness :
    (∃ i w, ([⟨"a", "n", []⟩] : List User)[i]? = some w ∧ w.id = "a" ∧
      onUserUpdatedHandler [⟨"a", "n", []⟩] ⟨"a", "m", []⟩ =
        ([⟨"a", "n", []⟩] : List User).set i ⟨"a", "m", []⟩) ∧
    onUserUpdatedHandler [⟨"a", "n", []⟩] ⟨"b", "m", []⟩ =
      [⟨"a", "n", []⟩, ⟨"b", "m", []⟩] ∧
    onUserDeletedHandler [⟨"a", "n", []⟩] "b" = [⟨"a", "n", []⟩] ∧
    (∃ i w, ([⟨"d1", "on", "t"⟩] : List Device)[i]? = some w ∧ w.deviceId = "d1" ∧
      upsertDevice [⟨"d1", "on", "t"⟩] ⟨"d1", "off", "t2"⟩ =
        ([⟨"d1", "on", "t"⟩] : List Device).set i ⟨"d1", "off", "t2"⟩) ∧
    upsertDevice [⟨"d1", "on", "t"⟩] ⟨"d2", "on", "t2"⟩ =
      [⟨"d1", "on", "t"⟩, ⟨"d2", "on", "t2"⟩] := by
  refine ⟨merge_upsert_delete.1 [⟨"a", "n", []⟩] ⟨"a", "m", []⟩ ⟨⟨"a", "n", []⟩, by decide, rfl⟩,
    merge_upsert_delete.2.1 [⟨"a", "n", []⟩] ⟨"b", "m", []⟩ (by decide),
    merge_upsert_delete.2.2.2.1 [⟨"a", "n", []⟩] "b" (by decide),
    merge_upsert_delete.2.2.2.2.1 [⟨"d1", "on", "t"⟩] ⟨"d1", "off", "t2"⟩
      ⟨⟨"d1", "on", "t"⟩, by decide, rfl⟩,
    merge_upsert_delete.2.2.2.2.2.1 [⟨"d1", "on", "t"⟩] ⟨"d2", "on", "t2"⟩ (by decide)⟩

theorem nodup_foldl_deviceBatches (batches : List (List Device)) :
    ∀ devices : List Device, (devices.map Device.deviceId).Nodup →
      ((batches.foldl onDeviceUpdatedHandler devices).map Device.deviceId).Nodup := by
  induction batches with
  | nil => intro devices h; simpa using h
  | cons b bs ih =>
    intro devices h
    simpa using ih (onDeviceUpdatedHandler devices b) (nodup_onDeviceUpdatedHandler b devices h)

/-- C5: id uniqueness is an invariant of the merge. If no two entries of
a collection share an id, then after applying any finite sequence of
update/delete events through the store's merge handlers (users), or any
sequence of update batches through the device handler, the resulting
collection still has pairwise-distinct ids. -/
theorem merge_preserves_id_uniqueness :
    (∀ (users : List User) (events : List UserEvent),
      (users.map User.id).Nodup →
        ((applyUserEvents users events).map User.id).Nodup) ∧
    (∀ (devices : List Device) (batches : List (List Device)),
      (devices.map Device.deviceId).Nodup →
        ((batches.foldl onDeviceUpdatedHandler devices).map Device.deviceId).Nodup) := by
  refine ⟨?_, ?_⟩
  · intro users events h
    exact nodup_applyUserEvents events users h
  · intro devices batches h
    exact nodup_foldl_deviceBatches batches devices h

theorem merge_preserves_id_uniqueness_witness :
    ((([⟨"a", "n", []⟩, ⟨"b", "n", []⟩] : List User).map User.id).Nodup ∧
      ((applyUserEvents [⟨"a", "n", []⟩, ⟨"b", "n", []⟩]
        [.updated ⟨"a", "m", []⟩, .deleted "b", .updated ⟨"c", "m", []⟩]).map User.id).Nodup) ∧
    ((([⟨"d1", "on", "t"⟩] : List Device).map Device.deviceId).Nodup ∧
      (((([[⟨"d1", "off", "t2"⟩, ⟨"d2", "on", "t2"⟩]] : List (List Device))).foldl
        onDeviceUpdatedHandler [⟨"d1", "on", "t"⟩]).map Device.deviceId).Nodup) :=
  ⟨⟨by decide, merge_preserves_id_uniqueness.1 _ _ (by decide)⟩,
   ⟨by decide, merge_preserves_id_uniqueness.2 _ _ (by decide)⟩⟩

/-! ## Snapshot fetch boundary

`src/admin/src/api/client.js` (response interceptor, lines 32–54)
attaches a classified `domainError` to a rejected request: HTTP 404 ↦
NotFound, HTTP 503 ↦ ServiceUnavailable, code ECONNABORTED ↦ Timeout;
anything else stays unclassified. `src/admin/src/api/devices.ts`
(`fetchDevices`, lines 29–64) maps the classification to the outcome the
store observes: NotFound becomes an empty collection (a success),
ServiceUnavailable / Timeout / unclassified become thrown `Error`s with
a fixed user-facing message (a thrown `new Error(msg)` has name
`"Error"`). -/

inductive DomainError
  | notFound
  | serviceUnavailable
  | timeout
deriving Repr, DecidableEq

def classifyError (status : Option Nat) (code : Option String) : Option DomainError :=
  match status with
  | some s =>
    if s = 404 then some .notFound
    else if s = 503 then some .serviceUnavailable
    else none
  | none => if code = some "ECONNABORTED" then some .timeout else none

/-- Result of the underlying `apiClient.get` call: a 2xx body, or a
rejection carrying the interceptor's classification. -/
inductive ApiResult
  | ok (devices : List Device)
  | err (domainError : Option DomainError)
deriving Repr, DecidableEq

/-- What one `fetchDevices` promise settles to, as observed by the
store's `try`/`catch`: a resolved device list, or a rejection with an
error name and message. -/
inductive FetchOutcome
  | success (data : List Device)
  | failure (name message : String)
deriving Repr, DecidableEq

def fetchDevicesOutcome : ApiResult → FetchOutcome
  | .ok ds => .success ds
  | .err (some .notFound) => .success []
  | .err (some .serviceUnavailable) =>
    .failure "Error" "Service is busy. Please try again later."
  | .err (some .timeout) => .failure "Error" "Request timed out. Please try again."
  | .err none => .failure "Error" "Failed to fetch device information."

/-! ## The store's load path as a small-step system

`loadDevices` (`src/admin/src/stores/devices.ts`, lines 16–52; `loadUsers`,
lines 133–166, has the identical control flow) runs as:

synchronous prefix (one step, `LoadAction.start`):
```
if (abortController) abortController.abort()
const currentController = new AbortController()
abortController = currentController
loading.value = true
error.value = null
```
then suspends awaiting `fetchDevices(currentController.signal)`; when
that promise settles the continuation runs (`LoadAction.settle`):
on resolution `devices.value = <data>`; on rejection named `AbortError`
the catch returns silently; on any other rejection
`error.value = <message>`; in all cases the `finally` block clears
`loading` and the tracked controller only if `abortController` still
is `currentController`.

Sessions are numbered in creation order; `current` is the store's
`abortController` field (by session), `aborted` the sessions whose
controller was aborted, `pending` the sessions whose fetch promise has
not settled.

Two modelling facts about the JavaScript runtime, reflected in
`stepLoad`:
* aborting an in-flight (unsettled) axios request causes its promise to
  reject — an aborted session can never settle successfully;
* for this code no application callback can run between the settlement
  of the fetch promise and its `await` continuation (both happen inside
  one microtask drain), so a settle step executes the continuation
  atomically. The `await initializeSignalR()` inside the success branch
  suspends only connection setup; it performs no collection writes and
  is absorbed into the settle step. -/

structure LoadState where
  devices : List Device
  loading : Bool
  error : Option String
  current : Option Nat
  aborted : List Nat
  pending : List Nat
  nextSession : Nat
deriving Repr, DecidableEq

def LoadState.initial (devices0 : List Device) : LoadState :=
  ⟨devices0, false, none, none, [], [], 0⟩

inductive LoadAction
  | start
  | settle (i : Nat) (outcome : FetchOutcome)
deriving Repr, DecidableEq

/-- The `finally` block of `loadDevices`: clear `loading` and the
tracked controller only if this session is still the active one. -/
def runFinally (s : LoadState) (i : Nat) : LoadState :=
  if s.current = some i then { s with loading := false, current := none } else s

def stepLoad (s : LoadState) : LoadAction → Option LoadState
  | .start =>
    some { s with
      current := some s.nextSession
      loading := true
      error := none
      aborted := match s.current with
        | some j => j :: s.aborted
        | none => s.aborted
      pending := s.nextSession :: s.pending
      nextSession := s.nextSession + 1 }
  | .settle i outcome =>
    if i ∈ s.pending then
      let s1 := { s with pending := s.pending.erase i }
      match outcome with
      | .success d =>
        if i ∈ s.aborted then none
        else some (runFinally { s1 with devices := d } i)
      | .failure n m =>
        if n = "AbortError" then some (runFinally s1 i)
        else some (runFinally { s1 with error := some m } i)
    else none

def runLoad (s : LoadState) : List LoadAction → Option LoadState
  | [] => some s
  | a :: rest =>
    match stepLoad s a with
    | some s' => runLoad s' rest
    | none => none

theorem runFinally_devices (s : LoadState) (i : Nat) :
    (runFinally s i).devices = s.devices := by
  unfold runFinally; split <;> rfl

theorem runFinally_pending (s : LoadState) (i : Nat) :
    (runFinally s i).pending = s.pending := by
  unfold runFinally; split <;> rfl

theorem runFinally_aborted (s : LoadState) (i : Nat) :
    (runFinally s i).aborted = s.aborted := by
  unfold runFinally; split <;> rfl

theorem stepLoad_settle_fields (s s' : LoadState) (i : Nat) (out : FetchOutcome)
    (h : stepLoad s (.settle i out) = some s') :
    i ∈ s.pending ∧ s'.pending = s.pending.erase i ∧ s'.aborted = s.aborted ∧
    (∀ d, out = .success d → i ∉ s.aborted ∧ s'.devices = d) ∧
    ((∀ d, out ≠ .success d) → s'.devices = s.devices) := by
  unfold stepLoad at h
  by_cases hmem : i ∈ s.pending
  · simp only [hmem, if_true] at h
    cases out with
    | success d =>
      by_cases hab : i ∈ s.aborted
      · simp [hab] at h
      · simp only [hab, if_false] at h
        obtain rfl := Option.some.inj h
        refine ⟨hmem, runFinally_pending _ _, runFinally_aborted _ _, ?_, ?_⟩
        · intro d' hd'
          obtain rfl := (FetchOutcome.success.inj hd').symm
          exact ⟨hab, runFinally_devices _ _⟩
        · intro hno
          exact absurd rfl (hno d)
    | failure n m =>
      by_cases hn : n = "AbortError"
      · simp only [hn, if_true] at h
        obtain rfl := Option.some.inj h
        refine ⟨hmem, runFinally_pending _ _, runFinally_aborted _ _, ?_, ?_⟩
        · intro d hd
          cases hd
        · intro _
          exact runFinally_devices _ _
      · simp only [hn, if_false] at h
        obtain rfl := Option.some.inj h
        refine ⟨hmem, runFinally_pending _ _, runFinally_aborted _ _, ?_, ?_⟩
        · intro d hd
          cases hd
        · intro _
          exact runFinally_devices _ _
  · simp [hmem] at h

/-- Invariant holding after `load()` was issued twice in direct
succession: session 0 has been aborted, only sessions 0 and 1 can still
be pending, and no session is pending twice. -/
def SessionInv (s : LoadState) : Prop :=
  0 ∈ s.aborted ∧ (∀ j ∈ s.pending, j = 0 ∨ j = 1) ∧ s.pending.Nodup

theorem sessionInv_preserved (s s' : LoadState) (i : Nat) (out : FetchOutcome)
    (h : stepLoad s (.settle i out) = some s') (hinv : SessionInv s) : SessionInv s' := by
  obtain ⟨-, hpend, habort, -, -⟩ := stepLoad_settle_fields s s' i out h
  refine ⟨habort ▸ hinv.1, ?_, ?_⟩
  · intro j hj
    rw [hpend] at hj
    exact hinv.2.1 j (List.mem_of_mem_erase hj)
  · rw [hpend]
    exact hinv.2.2.erase i

theorem successes_are_second (acts : List LoadAction) :
    ∀ s s', (∀ a ∈ acts, a ≠ LoadAction.start) → SessionInv s →
      runLoad s acts = some s' →
      ∀ i d, LoadAction.settle i (.success d) ∈ acts → i = 1 := by
  induction acts with
  | nil => intro s s' _ _ _ i d hmem; cases hmem
  | cons a rest ih =>
    intro s s' hns hinv hrun i d hmem
    cases hstep : stepLoad s a with
    | none => rw [runLoad, hstep] at hrun; cases hrun
    | some s1 =>
      have hrun1 : runLoad s1 rest = some s' := by rw [runLoad, hstep] at hrun; exact hrun
      cases a with
      | start => exact absurd rfl (hns _ (List.mem_cons_self _ _))
      | settle j out =>
        obtain ⟨hjmem, -, -, hsucc, -⟩ := stepLoad_settle_fields s s1 j out hstep
        rcases List.mem_cons.mp hmem with heq | hmem'
        · injection heq with hij hout
          subst hij
          obtain ⟨hnab, -⟩ := hsucc d hout.symm
          rcases hinv.2.1 i hjmem with h0 | h1
          · exfalso
            apply hnab
            rw [h0]
            exact hinv.1
          · exact h1
        · exact ih s1 s' (fun b hb => hns b (List.mem_cons_of_mem _ hb))
            (sessionInv_preserved s s1 j out hstep hinv) hrun1 i d hmem'

theorem after_second_settled (acts : List LoadAction) :
    ∀ s s', (∀ a ∈ acts, a ≠ LoadAction.start) → SessionInv s → 1 ∉ s.pending →
      runLoad s acts = some s' →
      s'.devices = s.devices ∧ ∀ d, LoadAction.settle 1 (.success d) ∉ acts := by
  induction acts with
  | nil =>
    intro s s' _ _ _ hrun
    obtain rfl := Option.some.inj hrun
    exact ⟨rfl, fun d hd => by cases hd⟩
  | cons a rest ih =>
    intro s s' hns hinv hnp hrun
    cases hstep : stepLoad s a with
    | none => rw [runLoad, hstep] at hrun; cases hrun
    | some s1 =>
      have hrun1 : runLoad s1 rest = some s' := by rw [runLoad, hstep] at hrun; exact hrun
      cases a with
      | start => exact absurd rfl (hns _ (List.mem_cons_self _ _))
      | settle j out =>
        obtain ⟨hjmem, hpend, -, hsucc, hfail⟩ := stepLoad_settle_fields s s1 j out hstep
        have hj0 : j = 0 := by
          rcases hinv.2.1 j hjmem with h0 | h1
          · exact h0
          · rw [h1] at hjmem
            exact absurd hjmem hnp
        have hdev : s1.devices = s.devices := by
          apply hfail
          intro d hd
          obtain ⟨hnab, -⟩ := hsucc d hd
          apply absurd _ hnab
          rw [hj0]
          exact hinv.1
        have hnp1 : 1 ∉ s1.pending := by
          rw [hpend]
          intro hc
          exact hnp (List.mem_of_mem_erase hc)
        obtain ⟨hdev', hnot⟩ := ih s1 s' (fun b hb => hns b (List.mem_cons_of_mem _ hb))
          (sessionInv_preserved s s1 j out hstep hinv) hnp1 hrun1
        refine ⟨by rw [hdev', hdev], ?_⟩
        intro d hd
        rcases List.mem_cons.mp hd with heq | hmem'
        · injection heq with hij hout
          rw [hj0] at hij
          exact absurd hij (by decide)
        · exact hnot d hmem'

theorem final_devices_of_second_success (acts : List LoadAction) :
    ∀ s s', (∀ a ∈ acts, a ≠ LoadAction.start) → SessionInv s →
      runLoad s acts = some s' →
      ∀ d, LoadAction.settle 1 (.success d) ∈ acts → s'.devices = d := by
  induction acts with
  | nil => intro s s' _ _ _ d hd; cases hd
  | cons a rest ih =>
    intro s s' hns hinv hrun d hmem
    cases hstep : stepLoad s a with
    | none => rw [runLoad, hstep] at hrun; cases hrun
    | some s1 =>
      have hrun1 : runLoad s1 rest = some s' := by rw [runLoad, hstep] at hrun; exact hrun
      have hns1 : ∀ b ∈ rest, b ≠ LoadAction.start :=
        fun b hb => hns b (List.mem_cons_of_mem a hb)
      have hinv1 : SessionInv s1 := by
        cases a with
        | start => exact absurd rfl (hns _ (List.mem_cons_self _ _))
        | settle j out => exact sessionInv_preserved s s1 j out hstep hinv
      cases a with
      | start => exact absurd rfl (hns _ (List.mem_cons_self _ _))
      | settle j out =>
        obtain ⟨hjmem, hpend, -, hsucc, -⟩ := stepLoad_settle_fields s s1 j out hstep
        rcases List.mem_cons.mp hmem with heq | hmem'
        · injection heq with hij hout
          subst hij
          obtain ⟨-, hdev⟩ := hsucc d hout.symm
          have hnp1 : 1 ∉ s1.pending := by
            rw [hpend]
            intro hc
            exact (hinv.2.2.mem_erase_iff.mp hc).1 rfl
          obtain ⟨hdev', -⟩ := after_second_settled rest s1 s' hns1 hinv1 hnp1 hrun1
          rw [hdev', hdev]
        · by_cases h1 : 1 ∈ s1.pending
          · exact ih s1 s' hns1 hinv1 hrun1 d hmem'
          · obtain ⟨-, hnot⟩ := after_second_settled rest s1 s' hns1 hinv1 h1 hrun1
            exact absurd hmem' (hnot d)

/-- C1: if `load()` is issued a second time while the first pull is
still in flight, the first session is aborted and its fetch can no
longer resolve; across every interleaving of the remaining events, the
only pull result ever written to the collection is the second session's,
and when the second session resolves successfully the final collection
is exactly its result. -/
theorem load_twice_second_session_wins :
    ∀ (devices0 : List Device) (rest : List LoadAction) (s : LoadState),
      (∀ a ∈ rest, a ≠ LoadAction.start) →
      runLoad (LoadState.initial devices0)
        (LoadAction.start :: LoadAction.start :: rest) = some s →
      (∀ i d, LoadAction.settle i (.success d) ∈
          (LoadAction.start :: LoadAction.start :: rest : List LoadAction) → i = 1) ∧
      (∀ d, LoadAction.settle 1 (.success d) ∈ rest → s.devices = d) := by
  intro devices0 rest s hns hrun
  have hrun2 : runLoad (⟨devices0, true, none, some 1, [0], [1, 0], 2⟩ : LoadState) rest =
      some s := hrun
  have hinv : SessionInv ⟨devices0, true, none, some 1, [0], [1, 0], 2⟩ := by
    refine ⟨?_, ?_, ?_⟩
    · show (0 : Nat) ∈ [0]
      decide
    · show ∀ j ∈ ([1, 0] : List Nat), j = 0 ∨ j = 1
      decide
    · show ([1, 0] : List Nat).Nodup
      decide
  refine ⟨?_, ?_⟩
  · intro i d hmem
    rcases List.mem_cons.mp hmem with heq | hmem'
    · cases heq
    rcases List.mem_cons.mp hmem' with heq | hmem''
    · cases heq
    exact successes_are_second rest _ s hns hinv hrun2 i d hmem''
  · intro d hmem
    exact final_devices_of_second_success rest _ s hns hinv hrun2 d hmem

theorem load_twice_second_session_wins_witness :
    runLoad (LoadState.initial [])
      [LoadAction.start, LoadAction.start,
        LoadAction.settle 0 (.failure "Error" "Failed to fetch device information."),
        LoadAction.settle 1 (.success [⟨"d1", "online", "t"⟩])] =
      some ⟨[⟨"d1", "online", "t"⟩], false, some "Failed to fetch device information.",
        none, [0], [], 2⟩ ∧
    (⟨[⟨"d1", "online", "t"⟩], false, some "Failed to fetch device information.",
        none, [0], [], 2⟩ : LoadState).devices = [⟨"d1", "online", "t"⟩] :=
  ⟨by decide,
   (load_twice_second_session_wins []
      [LoadAction.settle 0 (.failure "Error" "Failed to fetch device information."),
       LoadAction.settle 1 (.success [⟨"d1", "online", "t"⟩])] _
      (by decide) (by decide)).2 [⟨"d1", "online", "t"⟩] (by decide)⟩

/-- C6: a pull failure that is not a cancellation (every classified
failure `fetchDevices` can produce — ServiceUnavailable, Timeout or
unclassified; NotFound resolves to an empty list instead of failing)
makes `load()` set `error` to the user-facing message derived from the
error kind, leave the previously held collection exactly as it was, and
leave `loading` false. -/
theorem load_failure_sets_error_preserves_collection :
    ∀ (devices0 : List Device) (de : Option DomainError) (n m : String),
      fetchDevicesOutcome (.err de) = .failure n m →
      runLoad (LoadState.initial devices0)
        [LoadAction.start, LoadAction.settle 0 (.failure n m)] =
        some ⟨devices0, false, some m, none, [], [], 1⟩ := by
  intro devices0 de n m h
  rcases de with - | de
  · cases h
    rfl
  · cases de
    · cases h
    · cases h
      rfl
    · cases h
      rfl

theorem load_failure_witness :
    fetchDevicesOutcome (.err (some .timeout)) =
      .failure "Error" "Request timed out. Please try again." ∧
    runLoad (LoadState.initial [⟨"d1", "online", "t"⟩])
      [LoadAction.start,
        LoadAction.settle 0 (.failure "Error" "Request timed out. Please try again.")] =
      some ⟨[⟨"d1", "online", "t"⟩], false, some "Request timed out. Please try again.",
        none, [], [], 1⟩ :=
  ⟨rfl, load_failure_sets_error_preserves_collection [⟨"d1", "online", "t"⟩]
    (some .timeout) "Error" "Request timed out. Please try again." rfl⟩

/-- C7: a pull that fails with the Cancelled outcome (a rejection named
`AbortError`) never sets the store's `error` field: after the load
completes, `error` still holds the `null` written at the start of the
load, the collection is untouched, and `loading` is false. -/
theorem load_cancelled_never_sets_error :
    ∀ (devices0 : List Device) (m : String),
      runLoad (LoadState.initial devices0)
        [LoadAction.start, LoadAction.settle 0 (.failure "AbortError" m)] =
        some ⟨devices0, false, none, none, [], [], 1⟩ := by
  intro devices0 m
  rfl

/-! ## SignalR connection lifecycle

`connectSignalR` (`src/admin/src/utils/signalr.ts`, lines 41–111) as a
small-step system. One invocation runs:

synchronous prefix (`SRAction.invoke`): if the module-level `connection`
is non-null, return it immediately; otherwise issue the negotiate fetch
and suspend (`CallPhase.atNegotiate`).

When the negotiate fetch settles (`SRAction.negotiateResolve`): a thrown
fetch error, the 5-second timeout abort, a non-2xx status, a malformed
body, or an empty `url`/`accessToken` field all land in the outer catch,
which sets `connection = null` and rethrows; a well-formed response
builds the hub connection, assigns it to the module-level handle
*before* starting it, issues `connection.start()` and suspends
(`CallPhase.atStart`).

When `start()` settles (`SRAction.startResolve`): on success the call
returns the module-level `connection` (re-read after the await); on
failure the catch sets `connection = null` and rethrows.

`negotiationsIssued` and `transportsStarted` count the negotiate fetches
and `start()` calls ever issued. -/

inductive NegotiateOutcome
  | ok (url accessToken : String)
  | notOk (status : Nat)
  | timeoutAbort
  | netError
  | badBody
deriving Repr, DecidableEq

inductive CallPhase
  | atNegotiate
  | atStart (conn : Nat)
deriving Repr, DecidableEq

inductive CallResult
  | returned (conn : Option Nat)
  | threw
deriving Repr, DecidableEq

structure SRCall where
  id : Nat
  phase : CallPhase
deriving Repr, DecidableEq

structure SRState where
  connection : Option Nat
  nextConn : Nat
  nextCall : Nat
  negotiationsIssued : Nat
  transportsStarted : Nat
  active : List SRCall
  results : List (Nat × CallResult)
deriving Repr, DecidableEq

def SRState.start : SRState := ⟨none, 0, 0, 0, 0, [], []⟩

inductive SRAction
  | invoke
  | negotiateResolve (id : Nat) (out : NegotiateOutcome)
  | startResolve (id : Nat) (ok : Bool)
deriving Repr, DecidableEq

def stepSR (s : SRState) : SRAction → Option SRState
  | .invoke =>
    match s.connection with
    | some c =>
      some { s with
        results := (s.nextCall, CallResult.returned (some c)) :: s.results
        nextCall := s.nextCall + 1 }
    | none =>
      some { s with
        negotiationsIssued := s.negotiationsIssued + 1
        active := ⟨s.nextCall, CallPhase.atNegotiate⟩ :: s.active
        nextCall := s.nextCall + 1 }
  | .negotiateResolve id out =>
    match s.active.find? (fun c => c.id == id) with
    | some ⟨_, CallPhase.atNegotiate⟩ =>
      match out with
      | .ok url accessToken =>
        if url = "" ∨ accessToken = "" then
          some { s with
            connection := none
            active := s.active.filter (fun c => c.id != id)
            results := (id, CallResult.threw) :: s.results }
        else
          some { s with
            connection := some s.nextConn
            nextConn := s.nextConn + 1
            transportsStarted := s.transportsStarted + 1
            active := ⟨id, CallPhase.atStart s.nextConn⟩ ::
              s.active.filter (fun c => c.id != id) }
      | _ =>
        some { s with
          connection := none
          active := s.active.filter (fun c => c.id != id)
          results := (id, CallResult.threw) :: s.results }
    | _ => none
  | .startResolve id ok =>
    match s.active.find? (fun c => c.id == id) with
    | some ⟨_, CallPhase.atStart _⟩ =>
      if ok then
        some { s with
          active := s.active.filter (fun c => c.id != id)
          results := (id, CallResult.returned s.connection) :: s.results }
      else
        some { s with
          connection := none
          active := s.active.filter (fun c => c.id != id)
          results := (id, CallResult.threw) :: s.results }
    | _ => none

def runSR (s : SRState) : List SRAction → Option SRState
  | [] => some s
  | a :: rest =>
    match stepSR s a with
    | some s' => runSR s' rest
    | none => none

/-- A subscription disposer as returned by the `on…` helpers of
`src/admin/src/utils/signalr.ts`: either the no-op closure handed out
while disconnected, or a closure that detaches the given topic handler
from the given connection. -/
inductive Disposer
  | noop
  | off (conn : Nat) (topic : String)
deriving Repr, DecidableEq

/-- `onDeviceUpdated` (`src/admin/src/utils/signalr.ts`, lines 129–139):
if the module-level connection is null, warn and return a no-op cleanup
function; otherwise register the callback and return a disposer for the
`deviceUpdated` topic. (`onUserUpdated`/`onUserDeleted` are identical up
to the topic name.) -/
def onDeviceUpdated (connection : Option Nat) : Disposer :=
  match connection with
  | none => Disposer.noop
  | some c => Disposer.off c "deviceUpdated"

/-- C2 counterexample: from the disconnected start state, a second
`connectSignalR()` issued while the first is still suspended at its
negotiate fetch passes the `if (connection)` guard (the handle is only
assigned after negotiation succeeds) and issues a second negotiation;
after both negotiations resolve, two transports have been started and
the module handle is the second connection, which both callers receive. -/
theorem connect_during_negotiation_issues_second_negotiation :
    runSR SRState.start
      [SRAction.invoke, SRAction.invoke,
        SRAction.negotiateResolve 0 (.ok "wss://hub" "tok0"),
        SRAction.negotiateResolve 1 (.ok "wss://hub" "tok1"),
        SRAction.startResolve 0 true, SRAction.startResolve 1 true] =
      some ⟨some 1, 2, 2, 2, 2, [],
        [(1, CallResult.returned (some 1)), (0, CallResult.returned (some 1))]⟩ ∧
    (⟨some 1, 2, 2, 2, 2, [],
        [(1, CallResult.returned (some 1)), (0, CallResult.returned (some 1))]⟩ :
      SRState).negotiationsIssued = 2 ∧
    (⟨some 1, 2, 2, 2, 2, [],
        [(1, CallResult.returned (some 1)), (0, CallResult.returned (some 1))]⟩ :
      SRState).transportsStarted = 2 := by
  decide

/-- C2 (amended): `connectSignalR()` is idempotent once the module-level
handle has been assigned — for every call made while already connected,
and for every call made while a previous connect is suspended at
transport start (the handle is assigned before `start()` is awaited), it
returns the existing/pending connection and issues no second negotiation
and no second transport start. A call made while a previous connect is
still suspended at its negotiation is not protected and issues a second
negotiation. -/
theorem connect_idempotent_once_handle_assigned :
    ∀ (s : SRState) (c : Nat), s.connection = some c →
      stepSR s .invoke = some { s with
        results := (s.nextCall, CallResult.returned (some c)) :: s.results
        nextCall := s.nextCall + 1 } := by
  intro s c h
  simp only [stepSR, h]

theorem connect_idempotent_once_handle_assigned_witness :
    stepSR ⟨some 5, 6, 3, 6, 6, [], []⟩ .invoke =
      some ⟨some 5, 6, 4, 6, 6, [], [(3, CallResult.returned (some 5))]⟩ :=
  connect_idempotent_once_handle_assigned ⟨some 5, 6, 3, 6, 6, [], []⟩ 5 rfl

/-! ## Reconnect credential renewal

The `accessTokenFactory` closure built by `connectSignalR`
(`src/admin/src/utils/signalr.ts`, lines 85–95): on each reconnect
attempt it re-fetches the negotiate endpoint; a fetch error, a non-2xx
response, a body whose `accessToken` is missing or empty, or a JSON
parse error all make it return the closure-captured `accessToken` from
the initial negotiation. -/

inductive RenewalOutcome
  | fetchError
  | badStatus
  | jsonError
  | token (t : Option String)
deriving Repr, DecidableEq

def accessTokenFactory (accessToken : String) : RenewalOutcome → String
  | .fetchError => accessToken
  | .badStatus => accessToken
  | .jsonError => accessToken
  | .token none => accessToken
  | .token (some t) => if t = "" then accessToken else t

/-- Modelled from the spec: the "last known-good credential" after a
sequence of renewal attempts — the most recently obtained non-empty
token, the initially negotiated one if no renewal ever succeeded. The
implementation keeps no such state; this definition exists to compare
the spec's fallback against the code's. -/
def specLastKnownGood (initial : String) (history : List RenewalOutcome) : String :=
  history.foldl (fun acc o =>
    match o with
    | RenewalOutcome.token (some t) => if t = "" then acc else t
    | _ => acc) initial

/-- C3 counterexample: after a reconnect whose renewal succeeded with a
fresh token "t1", the last known-good credential is "t1"; but when the
next renewal fails, the factory falls back to the initially captured
"t0", not to "t1". -/
theorem accessTokenFactory_fallback_is_initial_not_last_good :
    accessTokenFactory "t0" (RenewalOutcome.token (some "t1")) = "t1" ∧
    specLastKnownGood "t0" [RenewalOutcome.token (some "t1")] = "t1" ∧
    accessTokenFactory "t0" RenewalOutcome.fetchError = "t0" ∧
    ("t0" : String) ≠ "t1" := by
  decide

def freshTokenOf : RenewalOutcome → Option String
  | RenewalOutcome.token (some t) => if t = "" then none else some t
  | _ => none

theorem accessTokenFactory_eq_getD (a : String) (o : RenewalOutcome) :
    accessTokenFactory a o = (freshTokenOf o).getD a := by
  cases o with
  | fetchError => rfl
  | badStatus => rfl
  | jsonError => rfl
  | token tt =>
    cases tt with
    | none => rfl
    | some v =>
      by_cases hv : v = ""
      · simp [accessTokenFactory, freshTokenOf, hv]
      · simp [accessTokenFactory, freshTokenOf, hv]

/-- C3 (amended): on every reconnect attempt the credential factory
re-negotiates; when the renewal yields a non-empty token it uses that
fresh credential, and when the renewal fails or returns no token it
falls back to the credential captured at the *initial* negotiation (not
to the most recent successfully renewed one), so the factory always
returns some credential and a reconnect never fails outright for lack of
one. -/
theorem accessTokenFactory_fresh_or_initial :
    ∀ (accessToken : String) (o : RenewalOutcome),
      (∀ t, freshTokenOf o = some t → accessTokenFactory accessToken o = t) ∧
      (freshTokenOf o = none → accessTokenFactory accessToken o = accessToken) := by
  intro accessToken o
  constructor
  · intro t ht
    rw [accessTokenFactory_eq_getD, ht]
    rfl
  · intro h
    rw [accessTokenFactory_eq_getD, h]
    rfl

theorem accessTokenFactory_fresh_or_initial_witness :
    accessTokenFactory "tokA" (RenewalOutcome.token (some "tokB")) = "tokB" ∧
    accessTokenFactory "tokA" RenewalOutcome.badStatus = "tokA" :=
  ⟨(accessTokenFactory_fresh_or_initial "tokA" (RenewalOutcome.token (some "tokB"))).1
      "tokB" (by decide),
   (accessTokenFactory_fresh_or_initial "tokA" RenewalOutcome.badStatus).2 rfl⟩

/-- C10: on every failure path of `connectSignalR` — negotiate fetch
error / timeout / non-2xx / malformed body, empty `url` or
`accessToken` field, or transport `start()` failure — the catch clears
the module-level handle (it is `null` afterwards) and the error
propagates to the caller; a subsequent `connectSignalR()` therefore
takes the fresh-negotiation path, and any subscribe call made while the
handle is `null` returns a no-op disposer instead of throwing. -/
theorem connect_failure_resets_handle :
    (∀ (s s' : SRState) (id : Nat) (out : NegotiateOutcome),
      (∀ url accessToken, out ≠ NegotiateOutcome.ok url accessToken) →
      stepSR s (.negotiateResolve id out) = some s' →
      s'.connection = none ∧ (id, CallResult.threw) ∈ s'.results ∧
      onDeviceUpdated s'.connection = Disposer.noop ∧
      stepSR s' .invoke = some { s' with
        negotiationsIssued := s'.negotiationsIssued + 1
        active := ⟨s'.nextCall, CallPhase.atNegotiate⟩ :: s'.active
        nextCall := s'.nextCall + 1 }) ∧
    (∀ (s s' : SRState) (id : Nat) (url accessToken : String),
      url = "" ∨ accessToken = "" →
      stepSR s (.negotiateResolve id (.ok url accessToken)) = some s' →
      s'.connection = none ∧ (id, CallResult.threw) ∈ s'.results ∧
      onDeviceUpdated s'.connection = Disposer.noop ∧
      stepSR s' .invoke = some { s' with
        negotiationsIssued := s'.negotiationsIssued + 1
        active := ⟨s'.nextCall, CallPhase.atNegotiate⟩ :: s'.active
        nextCall := s'.nextCall + 1 }) ∧
    (∀ (s s' : SRState) (id : Nat),
      stepSR s (.startResolve id false) = some s' →
      s'.connection = none ∧ (id, CallResult.threw) ∈ s'.results ∧
      onDeviceUpdated s'.connection = Disposer.noop ∧
      stepSR s' .invoke = some { s' with
        negotiationsIssued := s'.negotiationsIssued + 1
        active := ⟨s'.nextCall, CallPhase.atNegotiate⟩ :: s'.active
        nextCall := s'.nextCall + 1 }) := by
  refine ⟨?_, ?_, ?_⟩
  · intro s s' id out hok h
    simp only [stepSR] at h
    split at h
    <;> first
      | exact Option.noConfusion h
      | exact absurd rfl (hok _ _)
      | (obtain rfl := Option.some.inj h
         exact ⟨rfl, List.mem_cons_self _ _, rfl, rfl⟩)
  · intro s s' id url accessToken hempty h
    simp only [stepSR] at h
    split at h
    <;> first
      | exact Option.noConfusion h
      | (rw [if_pos hempty] at h
         obtain rfl := Option.some.inj h
         exact ⟨rfl, List.mem_cons_self _ _, rfl, rfl⟩)
  · intro s s' id h
    simp only [stepSR] at h
    split at h
    <;> first
      | exact Option.noConfusion h
      | (rw [if_neg (by decide : ¬ (false = true))] at h
         obtain rfl := Option.some.inj h
         exact ⟨rfl, List.mem_cons_self _ _, rfl, rfl⟩)

theorem connect_failure_resets_handle_witness :
    (stepSR ⟨some 0, 1, 1, 1, 1, [⟨1, CallPhase.atNegotiate⟩], []⟩
        (.negotiateResolve 1 .timeoutAbort) =
      some ⟨none, 1, 1, 1, 1, [], [(1, CallResult.threw)]⟩) ∧
    ((⟨none, 1, 1, 1, 1, [], [(1, CallResult.threw)]⟩ : SRState).connection = none ∧
      (1, CallResult.threw) ∈
        (⟨none, 1, 1, 1, 1, [], [(1, CallResult.threw)]⟩ : SRState).results ∧
      onDeviceUpdated (⟨none, 1, 1, 1, 1, [], [(1, CallResult.threw)]⟩ : SRState).connection =
        Disposer.noop ∧
      stepSR (⟨none, 1, 1, 1, 1, [], [(1, CallResult.threw)]⟩ : SRState) .invoke =
        some ⟨none, 1, 2, 2, 1, [⟨1, CallPhase.atNegotiate⟩], [(1, CallResult.threw)]⟩) :=
  ⟨by decide,
   connect_failure_resets_handle.1 ⟨some 0, 1, 1, 1, 1, [⟨1, CallPhase.atNegotiate⟩], []⟩
     ⟨none, 1, 1, 1, 1, [], [(1, CallResult.threw)]⟩ 1 .timeoutAbort
     (fun _ _ h => by cases h) (by decide)⟩

/-! ## Store cleanup

`cleanup` of the devices store (`src/admin/src/stores/devices.ts`,
lines 85–106; the users store's `cleanup`, lines 211–234, is identical
except for a second disposer):
```
if (abortController) { abortController.abort(); abortController = null }
if (unregisterDeviceHandler) { unregisterDeviceHandler(); unregisterDeviceHandler = null }
disconnectSignalR()
signalRInitialized = false
devices.value = []; loading.value = false; error.value = null
```
The disposer is `() => connection?.off('deviceUpdated', callback)`;
`disconnectSignalR` stops the transport and nulls the module handle, so
any handlers attached to it are gone with it. Every branch is guarded by
a null check, so the function is total (never throws) from any state,
including the never-initialized one. -/

structure Conn where
  id : Nat
  deviceHandlers : Nat
deriving Repr, DecidableEq

structure CleanupState where
  devices : List Device
  loading : Bool
  error : Option String
  abortCtrl : Option Nat
  srInit : Bool
  disposerHeld : Bool
  connection : Option Conn
deriving Repr, DecidableEq

def offDeviceHandler : Option Conn → Option Conn
  | none => none
  | some c => some ⟨c.id, c.deviceHandlers - 1⟩

def cleanup (s : CleanupState) : CleanupState :=
  let s1 := match s.abortCtrl with
    | some _ => { s with abortCtrl := none }
    | none => s
  let s2 := if s1.disposerHeld then
      { s1 with
        connection := offDeviceHandler s1.connection
        disposerHeld := false }
    else s1
  let s3 := { s2 with connection := none, srInit := false }
  { s3 with devices := [], loading := false, error := none }

/-- C8: `cleanup()` is idempotent and total: from every state —
including the never-initialized initial state — it leaves the collection
empty, `loading` false, `error` null, no tracked abort controller, the
SignalR-initialized flag cleared, no disposer held and the connection
handle null (so no subscription handler remains registered); running it
twice equals running it once, and running it on the initial state is a
no-op. Being a total function of the state, it never throws. -/
theorem cleanup_idempotent_total :
    ∀ s : CleanupState,
      cleanup s = ⟨[], false, none, none, false, false, none⟩ ∧
      cleanup (cleanup s) = cleanup s ∧
      cleanup ⟨[], false, none, none, false, false, none⟩ =
        ⟨[], false, none, none, false, false, none⟩ := by
  intro s
  have h1 : cleanup s = ⟨[], false, none, none, false, false, none⟩ := by
    unfold cleanup
    cases hab : s.abortCtrl <;> cases hd : s.disposerHeld <;> simp [hab, hd]
  refine ⟨h1, ?_, rfl⟩
  rw [h1]
  rfl

/-! ## Ephemeral notification queue

`src/admin/src/stores/toast.ts`. `createToast` (lines 43–59) pushes a
toast with the next monotonic id, schedules an auto-dismiss timer and
records the timer handle in `timeoutMap`; `showSuccess`/`showError`
(lines 66–77) call it with the type tag and default duration.
`dismissToast` (lines 83–93) clears the scheduled timeout if the map
holds one for the id, deletes the map entry, and filters the toast out
of the list. `fireTimer` is a timer expiring: the runtime removes the
timer from the pending set and runs the scheduled callback
`() => dismissToast(id)`. The `type` field is called `ttype` here
because `type` is a reserved word in Lean. -/

structure Toast where
  id : Nat
  message : String
  ttype : String
  duration : Nat
deriving Repr, DecidableEq

structure ToastState where
  toasts : List Toast
  nextId : Nat
  timeoutMap : List (Nat × Nat)
  pendingTimers : List Nat
  nextTimer : Nat
deriving Repr, DecidableEq

def createToast (s : ToastState) (message ttype : String) (duration : Nat) : ToastState :=
  { toasts := s.toasts ++ [⟨s.nextId, message, ttype, duration⟩]
    nextId := s.nextId + 1
    timeoutMap := s.timeoutMap ++ [(s.nextId, s.nextTimer)]
    pendingTimers := s.pendingTimers ++ [s.nextTimer]
    nextTimer := s.nextTimer + 1 }

def showSuccess (s : ToastState) (message : String) : ToastState :=
  createToast s message "success" 3000

def showError (s : ToastState) (message : String) : ToastState :=
  createToast s message "error" 5000

def dismissToast (s : ToastState) (id : Nat) : ToastState :=
  let s1 := match s.timeoutMap.find? (fun p => p.1 == id) with
    | some p =>
      { s with
        pendingTimers := s.pendingTimers.erase p.2
        timeoutMap := s.timeoutMap.filter (fun q => q.1 != id) }
    | none => s
  { s1 with toasts := s1.toasts.filter (fun t => t.id != id) }

def fireTimer (s : ToastState) (id timer : Nat) : Option ToastState :=
  if timer ∈ s.pendingTimers ∧ (id, timer) ∈ s.timeoutMap then
    some (dismissToast { s with pendingTimers := s.pendingTimers.erase timer } id)
  else none

theorem dismissToast_of_find_none (s : ToastState) (id : Nat)
    (hf : s.timeoutMap.find? (fun p => p.1 == id) = none) :
    dismissToast s id = { s with toasts := s.toasts.filter (fun t => t.id != id) } := by
  unfold dismissToast
  rw [hf]

theorem dismissToast_toasts (s : ToastState) (id : Nat) :
    (dismissToast s id).toasts = s.toasts.filter (fun t => t.id != id) := by
  unfold dismissToast
  cases hf : s.timeoutMap.find? (fun p => p.1 == id) <;> rfl

theorem dismissToast_timeoutMap (s : ToastState) (id : Nat) :
    (dismissToast s id).timeoutMap = s.timeoutMap.filter (fun q => q.1 != id) := by
  unfold dismissToast
  cases hf : s.timeoutMap.find? (fun p => p.1 == id) with
  | none =>
    show s.timeoutMap = s.timeoutMap.filter (fun q => q.1 != id)
    symm
    apply filter_eq_self_of_forall
    intro q hq
    rw [List.find?_eq_none] at hf
    simpa using hf q hq
  | some p => rfl

theorem dismissToast_idem (s : ToastState) (id : Nat) :
    dismissToast (dismissToast s id) id = dismissToast s id := by
  have hf2 : (dismissToast s id).timeoutMap.find? (fun p => p.1 == id) = none := by
    rw [dismissToast_timeoutMap, List.find?_eq_none]
    intro x hx
    simpa using (List.mem_filter.mp hx).2
  rw [dismissToast_of_find_none _ _ hf2]
  have ht : (dismissToast s id).toasts.filter (fun t => t.id != id) =
      (dismissToast s id).toasts := by
    apply filter_eq_self_of_forall
    intro t htm
    rw [dismissToast_toasts] at htm
    exact (List.mem_filter.mp htm).2
  rw [ht]

/-- C9: notification dismissal and expiry are mutually idempotent.
Dismissing an id that has no scheduled timeout and no toast (never
created, or already removed) leaves the state — remaining toasts and
pending timers included — exactly unchanged and never throws; dismissing
twice equals dismissing once; and dismissing after the ttl timer already
fired (which itself runs `dismissToast`) is a no-op on the resulting
state. -/
theorem dismiss_expiry_idempotent :
    (∀ (s : ToastState) (id : Nat),
      s.timeoutMap.find? (fun p => p.1 == id) = none →
      (∀ t ∈ s.toasts, t.id ≠ id) →
      dismissToast s id = s) ∧
    (∀ (s : ToastState) (id : Nat),
      dismissToast (dismissToast s id) id = dismissToast s id) ∧
    (∀ (s : ToastState) (id timer : Nat) (s' : ToastState),
      fireTimer s id timer = some s' → dismissToast s' id = s') := by
  refine ⟨?_, ?_, ?_⟩
  · intro s id hf hto
    rw [dismissToast_of_find_none _ _ hf]
    have : s.toasts.filter (fun t => t.id != id) = s.toasts := by
      apply filter_eq_self_of_forall
      intro t htm
      simpa using hto t htm
    rw [this]
  · intro s id
    exact dismissToast_idem s id
  · intro s id timer s' h
    unfold fireTimer at h
    split at h
    · obtain rfl := Option.some.inj h
      exact dismissToast_idem _ id
    · exact Option.noConfusion h

theorem dismiss_expiry_idempotent_witness :
    dismissToast ⟨[], 0, [], [], 0⟩ 7 = ⟨[], 0, [], [], 0⟩ ∧
    dismissToast ⟨[], 1, [], [], 1⟩ 0 = ⟨[], 1, [], [], 1⟩ :=
  ⟨dismiss_expiry_idempotent.1 ⟨[], 0, [], [], 0⟩ 7 rfl (by decide),
   dismiss_expiry_idempotent.2.2 (createToast ⟨[], 0, [], [], 0⟩ "hi" "success" 3000)
     0 0 ⟨[], 1, [], [], 1⟩ (by decide)⟩

end Pokepal
